import Mathlib

/-!
# Verification of the ball-knowledge daily guessing game core

Shallow embedding of the game's core services and route-level state
transitions, translated from the Python sources:

* `app/services/scoring.py` — scoring engine (`compute_score`,
  `hint_penalty`, `compute_total_score`);
* `app/services/match.py`   — guess normalization and typo matching;
* `app/services/daily.py`   — deterministic daily subject selection;
* `app/services/hints.py`   — hint-value resolution;
* `app/routes.py`           — the `/play`, `/guess`, `/hint` and
  `/practice/hint` session transitions.

Python machine-level conventions are modelled explicitly: ASCII case
mapping, truthiness of `None`/`0`/`""`, the partiality of `int(...)` on
strings, and external collaborators (the Supabase client, the rapidfuzz
scorer used for suggestion ranking, the seeded Mersenne Twister) are
modelled as explicit parameters or as fixed deterministic stand-ins.
-/

namespace BallKnowledge

/-! ## Python string primitives

CPython `str.lower` / `str.upper` restricted to the ASCII range (all data
handled by the game — names, slugs, hint kinds, team codes — is ASCII).
Modelled as explicit 26-case tables so that idempotence is provable by
case analysis. -/

/-- ASCII model of CPython `str.lower` on a single character
(codes 65–90 shift up by 32, everything else is unchanged). -/
def pyLowerChar (c : Char) : Char :=
  if c.toNat ≥ 65 ∧ c.toNat ≤ 90 then Char.ofNat (c.toNat + 32) else c

/-- ASCII model of CPython `str.upper` on a single character. -/
def pyUpperChar (c : Char) : Char :=
  if c.toNat ≥ 97 ∧ c.toNat ≤ 122 then Char.ofNat (c.toNat - 32) else c

/-- Python `\s` / `str.split()` / `str.strip()` whitespace over ASCII. -/
def pySpace (c : Char) : Bool :=
  c = ' ' || c = '\t' || c = '\n' || c = '\r' || c = '\x0b' || c = '\x0c'

/-- ASCII model of CPython `str.strip()`: drop leading and trailing
whitespace. -/
def pyStrip (s : String) : String :=
  String.mk (((s.data.dropWhile pySpace).reverse.dropWhile pySpace).reverse)

/-- ASCII model of CPython `str.lower`. -/
def pyLower (s : String) : String := String.mk (s.data.map pyLowerChar)

/-- ASCII model of CPython `str.upper`. -/
def pyUpper (s : String) : String := String.mk (s.data.map pyUpperChar)

theorem char_ofNat_toNat_valid (n : Nat) (h : n.isValidChar) : (Char.ofNat n).toNat = n := by
  unfold Char.ofNat
  rw [dif_pos h]
  rfl

theorem pyLowerChar_idem (c : Char) : pyLowerChar (pyLowerChar c) = pyLowerChar c := by
  unfold pyLowerChar
  split
  · rename_i h
    have hv : (c.toNat + 32).isValidChar := by
      left
      omega
    have ht : (Char.ofNat (c.toNat + 32)).toNat = c.toNat + 32 :=
      char_ofNat_toNat_valid _ hv
    rw [if_neg]
    omega
  · rfl

theorem pyLower_idem (s : String) : pyLower (pyLower s) = pyLower s := by
  unfold pyLower
  simp only [List.map_map]
  congr 1
  exact List.map_congr_left (fun c _ => pyLowerChar_idem c)

/-! ## ScoringEngine — `app/services/scoring.py` -/

def START_SCORE : Int := 100

def PENALTY_PER_REVEAL : Int := 10

/-- The `HINT_COSTS` table of `scoring.py` (all keys lowercase). -/
def HINT_COSTS : List (String × Nat) :=
  [("team", 15), ("division", 10), ("conference", 8), ("record", 8),
   ("college", 20), ("first_name", 50), ("last_name", 60)]

/-- `HINT_COSTS.get(h, 0)` — cost of a hint kind, `0` for unknown kinds. -/
def hintCost (k : String) : Nat := (HINT_COSTS.lookup k).getD 0

/-- The set comprehension of `hint_penalty`:
`{str(h).strip().lower() for h in hints_used if str(h).strip()}`. -/
def uniqueHints (hints_used : List String) : Finset String :=
  ((hints_used.map (fun h => pyLower (pyStrip h))).filter (fun h => h ≠ "")).toFinset

/-- `hint_penalty` of `scoring.py`: sum of the unique hint costs,
case-insensitive; `None` is modelled as the empty list. -/
def hint_penalty (hints_used : List String) : Nat :=
  if hints_used = [] then 0
  else Finset.sum (uniqueHints hints_used) hintCost

/-- `compute_score` of `scoring.py`.  `int(revealed or 1)` maps the falsy
`0` to `1`, then `max(1, ·)` clamps from below. -/
def compute_score (revealed : Int) : Int :=
  let r : Int := max 1 (if revealed = 0 then 1 else revealed)
  max 0 (START_SCORE - PENALTY_PER_REVEAL * (r - 1))

/-- `compute_total_score` of `scoring.py`. -/
def compute_total_score (revealed : Int) (hints_used : List String) : Int :=
  let base := compute_score revealed
  let hp : Int := hint_penalty hints_used
  max 0 (base - hp)

/-- The score formula exactly as the specification words it:
`max(0, START_SCORE − PENALTY_PER_REVEAL × (revealed − 1) − Σ unique hint costs)`,
with no clamping of `revealed`. -/
def specScoreFormula (revealed : Int) (hints_used : List String) : Int :=
  max 0 (START_SCORE - PENALTY_PER_REVEAL * (revealed - 1) - (hint_penalty hints_used : Int))

/-! ## GuessMatcher — `app/services/match.py`

The module is embedded in its `HAVE_RAPIDFUZZ = True` configuration (the
one the specification describes).  `rapidfuzz.fuzz.ratio` is the
normalized Indel similarity, `100·2·LCS(a,b)/(|a|+|b|)`; the threshold
comparison `score >= 90` is embedded exactly over the integers as
`20·LCS ≥ 9·(|a|+|b|)`. -/

/-- Python regex `\w` over ASCII: `[a-zA-Z0-9_]`. -/
def isWordChar (c : Char) : Bool :=
  (c.toNat ≥ 97 && c.toNat ≤ 122) || (c.toNat ≥ 65 && c.toNat ≤ 90) ||
  (c.toNat ≥ 48 && c.toNat ≤ 57) || c = '_'

/-- Helper of `chunkBy`: accumulates the current (reversed) run. -/
def chunkAux (f : Char → Bool) (cur : List Char) (curVal : Bool) :
    List Char → List (List Char)
  | [] => [cur.reverse]
  | c :: cs =>
    if f c = curVal then chunkAux f (c :: cur) curVal cs
    else cur.reverse :: chunkAux f [c] (f c) cs

/-- Splits a character list into maximal runs on which `f` is constant. -/
def chunkBy (f : Char → Bool) : List Char → List (List Char)
  | [] => []
  | c :: cs => chunkAux f [c] (f c) cs

/-- The alternatives of the generational-suffix regex
`\b(jr|sr|ii|iii|iv|v)\b\.?` of `match.py` (the input is lowercased
before the regex runs). -/
def suffixAlternatives : List String := ["jr", "sr", "ii", "iii", "iv", "v"]

/-- Models `_SUFFIX_RE.sub("", ·)` on the run decomposition of the input:
a match of `\b(jr|sr|ii|iii|iv|v)\b\.?` is exactly a maximal `\w`-run
equal to one of the alternatives, together with one directly following
period.  Matched runs are deleted, everything else is kept in order. -/
def procGroupsAux : Bool → List (List Char) → List Char
  | _, [] => []
  | dropDot, g :: gs =>
    let g2 := if dropDot then (match g with | '.' :: r => r | other => other) else g
    if (String.mk g2) ∈ suffixAlternatives then procGroupsAux true gs
    else g2 ++ procGroupsAux false gs

def procGroups (gs : List (List Char)) : List Char := procGroupsAux false gs

/-- `PUNCT_RE.sub(" ", ·)`: every character outside `[a-z0-9\s]` becomes
a space. -/
def punctToSpace (c : Char) : Char :=
  if (c.toNat ≥ 97 && c.toNat ≤ 122) || (c.toNat ≥ 48 && c.toNat ≤ 57) ||
     pySpace c then c else ' '

/-- The word list produced by `norm_name`: lowercase, suffix tokens
dropped, punctuation to spaces, then `s.split()`. -/
def normChunks (s : String) : List (List Char) :=
  let low := s.data.map pyLowerChar
  let nosuf := procGroups (chunkBy isWordChar low)
  let depunct := nosuf.map punctToSpace
  (chunkBy pySpace depunct).filter (fun g => ¬ pySpace (g.headD 'x'))

/-- `" ".join(words)` on character lists. -/
def joinSp : List (List Char) → List Char
  | [] => []
  | g :: gs =>
    match gs with
    | [] => g
    | _ :: _ => g ++ ' ' :: joinSp gs

/-- `norm_name` of `match.py`: lowercase, strip generational suffix
tokens, strip punctuation, collapse whitespace. -/
def norm_name (s : String) : String := String.mk (joinSp (normChunks s))

/-- The word tokens of a normalized name, as strings. -/
def normTokens (s : String) : List String := (normChunks s).map String.mk

/-- `short_key` of `match.py`: a key like `"t brady"` for `"Tom Brady"`. -/
def short_key (s : String) : String :=
  match normTokens s with
  | [] => ""
  | [p] => p
  | p :: ps => p.take 1 ++ " " ++ (p :: ps).getLast (by simp)

/-- One row update of the LCS dynamic program: `diag`, `left` and the
previous row walk across the second word. -/
def lcsRowAux (a : Char) : List Char → List Nat → Nat → Nat → List Nat
  | [], _, _, _ => []
  | _ :: _, [], _, _ => []
  | c :: cs, p :: ps, diag, left =>
    let cur := if a = c then diag + 1 else max left p
    cur :: lcsRowAux a cs ps p cur

/-- Length of a longest common subsequence of two character lists,
computed row by row. -/
def lcsLen (xs ys : List Char) : Nat :=
  let init : List Nat := List.replicate (ys.length + 1) 0
  let final := xs.foldl (fun row a => 0 :: lcsRowAux a ys row.tail (row.headD 0) 0) init
  final.getLastD 0

/-- `fuzz.ratio(a, b) >= 90` of rapidfuzz, embedded exactly:
the ratio is `100·2·LCS/(|a|+|b|)` (and `100` when both are empty). -/
def simAtLeast90 (a b : String) : Bool :=
  let la := a.data.length
  let lb := b.data.length
  if la + lb = 0 then true
  else 20 * lcsLen a.data b.data ≥ 9 * (la + lb)

/-- `is_typo_match` of `match.py` (rapidfuzz branch): typo forgiveness
against the correct answer only. -/
def is_typo_match (query answer_fullname : String) : Bool :=
  let qn := norm_name query
  let an := norm_name answer_fullname
  if qn = "" || an = "" then false
  else
    if qn = an then true
    else if qn = short_key answer_fullname then true
    else simAtLeast90 qn an

/-! ## Dynamic values — Python truthiness and `int(...)`

`hints.py` reads season values out of loosely-typed bundle dicts and
converts them with `int(...)`, which raises `ValueError` on a
non-numeric string.  Season values are therefore embedded dynamically. -/

/-- A dynamically typed scalar as it occurs in a bundle's season field. -/
inductive PyVal where
  | vInt (n : Int)
  | vStr (s : String)
deriving Repr, DecidableEq

/-- Python truthiness of an optional scalar (`None`, `0` and `""` are
falsy). -/
def pvTruthy : Option PyVal → Bool
  | none => false
  | some (.vInt n) => n ≠ 0
  | some (.vStr s) => s ≠ ""

/-- Python truthiness of an optional string. -/
def osTruthy : Option String → Bool
  | none => false
  | some s => s ≠ ""

/-- Digit accumulator for `pyIntOfString`. -/
def parseDigits : List Char → Nat → Option Nat
  | [], acc => some acc
  | c :: cs, acc =>
    if c.isDigit then parseDigits cs (acc * 10 + (c.toNat - 48)) else none

/-- CPython `int(str)`: strip whitespace, optional sign, decimal
digits; `none` models the raised `ValueError`. -/
def pyIntOfString (s : String) : Option Int :=
  let t := ((s.data.dropWhile pySpace).reverse.dropWhile pySpace).reverse
  match t with
  | '-' :: ds => if ds = [] then none else (parseDigits ds 0).map (fun n => -(n : Int))
  | '+' :: ds => if ds = [] then none else (parseDigits ds 0).map (fun n => (n : Int))
  | ds => if ds = [] then none else (parseDigits ds 0).map (fun n => (n : Int))

/-- CPython `int(...)` on a scalar: the identity on ints, a parse that
raises `ValueError` on non-numeric strings. -/
def pyInt : PyVal → Except String Int
  | .vInt n => .ok n
  | .vStr s =>
    match pyIntOfString s with
    | some n => .ok n
    | none => .error "ValueError"

/-! ## PuzzleSelector — `app/services/daily.py`

`random.Random(seed)` is a Mersenne Twister determined entirely by its
seed; it is modelled by a fixed deterministic stand-in draw function.
An *unseeded* `random.Random()` seeds itself from the operating system,
modelled by an explicit entropy environment, so that determinism across
runs is a real statement rather than a tautology of the embedding. -/

/-- Per-run operating-system entropy, as consumed by an unseeded
`random.Random()`. -/
structure Env where
  entropy : Nat
deriving Repr, DecidableEq

/-- A `random.Random` instance, determined by its Mersenne Twister seed. -/
structure PyRandom where
  state : Nat
deriving Repr, DecidableEq

/-- `random.Random(seed)` / `random.Random()`: an explicit seed is used
as given; with no seed the generator is seeded from OS entropy. -/
def pythonRandom (env : Env) : Option Nat → PyRandom
  | some s => ⟨s⟩
  | none => ⟨env.entropy⟩

/-- Deterministic stand-in for the Mersenne Twister's below-`n` draw.
The game relies only on the draw being a function of the seed, not on
its distribution. -/
def mtDraw (r : PyRandom) (n : Nat) : Nat :=
  if n = 0 then 0 else (r.state * 1103515245 + 12345) % n

/-- `Random.choice(seq)`: `seq[_randbelow(len(seq))]`, `None` on an
empty sequence (where CPython raises `IndexError`). -/
def randChoice {α : Type} (r : PyRandom) (xs : List α) : Option α :=
  xs.get? (mtDraw r xs.length)

/-- One raw season line of a player bundle (`season`, `team`; the three
numeric metrics play no role in the verified properties). -/
structure HLine where
  season : Option PyVal
  team : Option String
deriving Repr, DecidableEq

/-- A player record of the local seed file. -/
structure Player where
  full_name : String
  player_slug : String
  position : String
  college : Option String
  seasons : List HLine
deriving Repr, DecidableEq

/-- `_normalize_player` of `daily.py`: trim the college, drop the key
when it is empty. -/
def normalizePlayer (p : Player) : Player :=
  let college := pyStrip (p.college.getD "")
  { p with college := if college ≠ "" then some college else none }

/-- `pick_player_of_day` of `daily.py`: seed the generator with the
day's ordinal, choose from the player list, normalize the choice. -/
def pick_player_of_day (env : Env) (dayOrdinal : Nat) (players : List Player) :
    Option Player :=
  let rand := pythonRandom env (some dayOrdinal)
  (randChoice rand players).map normalizePlayer

/-! ## HintResolver — `app/services/hints.py` -/

/-- The `TEAM_ALIAS` table of `hints.py`. -/
def TEAM_ALIAS : List (String × String) :=
  [("NWE", "NE"), ("GNB", "GB"), ("KAN", "KC"), ("TAM", "TB"),
   ("SDG", "LAC"), ("STL", "LAR"), ("OAK", "LV"), ("CRD", "ARI"),
   ("OTI", "TEN"), ("NOR", "NO"), ("TBB", "TB"), ("SFO", "SF"),
   ("WSH", "WAS"), ("WFT", "WAS"), ("JAC", "JAX"),
   ("ARZ", "ARI"), ("BLT", "BAL"), ("RAM", "LAR"), ("RAI", "LV"),
   ("LA", "LAR"), ("SD", "LAC"),
   ("LV", "LV"), ("LAC", "LAC"), ("LAR", "LAR")]

/-- `canon` of `hints.py`: `None` for falsy codes, otherwise uppercase,
strip, and resolve through the alias table (unknown codes pass through). -/
def canon (code : Option String) : Option String :=
  match code with
  | none => none
  | some s =>
    if s = "" then none
    else
      let c := pyStrip (pyUpper s)
      some ((TEAM_ALIAS.lookup c).getD c)

/-- The `DIVISION_BY_TEAM` table of `hints.py`. -/
def DIVISION_BY_TEAM : List (String × (String × String)) :=
  [("BUF", ("AFC", "East")), ("MIA", ("AFC", "East")),
   ("NE", ("AFC", "East")), ("NYJ", ("AFC", "East")),
   ("BAL", ("AFC", "North")), ("CIN", ("AFC", "North")),
   ("CLE", ("AFC", "North")), ("PIT", ("AFC", "North")),
   ("HOU", ("AFC", "South")), ("IND", ("AFC", "South")),
   ("JAX", ("AFC", "South")), ("TEN", ("AFC", "South")),
   ("DEN", ("AFC", "West")), ("KC", ("AFC", "West")),
   ("LAC", ("AFC", "West")), ("LV", ("AFC", "West")),
   ("DAL", ("NFC", "East")), ("NYG", ("NFC", "East")),
   ("PHI", ("NFC", "East")), ("WAS", ("NFC", "East")),
   ("CHI", ("NFC", "North")), ("DET", ("NFC", "North")),
   ("GB", ("NFC", "North")), ("MIN", ("NFC", "North")),
   ("ATL", ("NFC", "South")), ("CAR", ("NFC", "South")),
   ("NO", ("NFC", "South")), ("TB", ("NFC", "South")),
   ("ARI", ("NFC", "West")), ("LAR", ("NFC", "West")),
   ("SF", ("NFC", "West")), ("SEA", ("NFC", "West"))]

/-- `_format_record`: `"W-L-T"` when ties are positive, else `"W-L"`. -/
def formatRecord (w l t : Int) : String :=
  if t > 0 then toString w ++ "-" ++ toString l ++ "-" ++ toString t
  else toString w ++ "-" ++ toString l

/-- The Supabase persistence collaborator as seen by
`_get_team_record`: a configured flag and a `(season, team)` query that
may fail (`Except.error` models a raised exception) and may find no row.
Row fields may be null (`data.get("wins", 0) or 0`). -/
structure TeamDB where
  configured : Bool
  query : Int → String → Except Unit (Option (Option Int × Option Int × Option Int))

/-- `_get_team_record` of `hints.py`: total — guards on configuration
and a falsy team, and swallows every collaborator exception. -/
def get_team_record (db : TeamDB) (season : Int) (team : String) : Option String :=
  if ¬ db.configured ∨ team = "" then none
  else
    match db.query season team with
    | .error _ => none
    | .ok none => none
    | .ok (some (w, l, t)) => some (formatRecord (w.getD 0) (l.getD 0) (t.getD 0))

/-- The nested `bundle["player"]` dict. -/
structure PlayerSub where
  college : Option String
  full_name : Option String
deriving Repr, DecidableEq

/-- A bundle dict as consumed by `resolve_hint_values`; a missing key is
`none`. -/
structure HBundle where
  stat_lines : List HLine
  college : Option String
  player : Option PlayerSub
  full_name : Option String
deriving Repr, DecidableEq

/-- The result dict of `resolve_hint_values` when stat lines exist:
`season`/`team`/`conference`/`division`/`record` are always present
(possibly `None`); `college`/`first_name`/`last_name` are present only
when non-blank (absence is modelled as `none`). -/
structure HintValues where
  season : Option PyVal
  team : Option String
  conference : Option String
  division : Option String
  record : Option String
  college : Option String
  first_name : Option String
  last_name : Option String
deriving Repr, DecidableEq

/-- `t.rstrip(".")`. -/
def rstripDots (s : String) : String :=
  String.mk ((s.data.reverse.dropWhile (fun c => c = '.')).reverse)

/-- `full.split()` — whitespace tokenization used by `_strip_suffix`. -/
def pySplitWs (s : String) : List String :=
  ((chunkBy pySpace s.data).filter (fun g => ¬ pySpace (g.headD 'x'))).map String.mk

/-- `_strip_suffix` inside `resolve_hint_values`: drop a trailing
generational-suffix token (compared after `rstrip(".")` and upper). -/
def stripSuffixToks (toks : List String) : List String :=
  match toks.getLast? with
  | none => toks
  | some t =>
    if pyUpper (rstripDots t) ∈ (["JR", "SR", "II", "III", "IV", "V"] : List String)
    then toks.dropLast else toks

/-- The index clamp of `resolve_hint_values`:
`idx = max(0, min(line_idx, len(lines) - 1))`. -/
def lineIndexFor (line_idx : Int) (len : Nat) : Nat :=
  (max 0 (min line_idx ((len : Int) - 1))).toNat

/-- `conf = div = None; if team and team in DIVISION_BY_TEAM: ...` -/
def confDivFor (team : Option String) : Option String × Option String :=
  match team with
  | some t =>
    if t ≠ "" then
      match DIVISION_BY_TEAM.lookup t with
      | some p => (some p.1, some p.2)
      | none => (none, none)
    else (none, none)
  | none => (none, none)

/-- `record = _get_team_record(int(season), team) if (season and team)
else None` — the one place `resolve_hint_values` can raise:
`int(season)` on a truthy non-numeric season string. -/
def recordForLine (db : TeamDB) (season : Option PyVal) (team : Option String) :
    Except String (Option String) :=
  if pvTruthy season && osTruthy team then
    match season with
    | some sv =>
      match pyInt sv with
      | .error e => .error e
      | .ok n => .ok (get_team_record db n (team.getD ""))
    | none => .ok none
  else .ok none

/-- The body of `resolve_hint_values` once a stat line is selected. -/
def resolveLine (db : TeamDB) (bundle : HBundle) (line : HLine) :
    Except String (Option HintValues) :=
  let season := line.season
  let team := canon line.team
  let confdiv := confDivFor team
  match recordForLine db season team with
  | .error e => .error e
  | .ok record =>
    let c1 := bundle.college.getD ""
    let c2 := (bundle.player.map (fun pl => pl.college.getD "")).getD ""
    let college := pyStrip (if c1 ≠ "" then c1 else c2)
    let f1 := bundle.full_name.getD ""
    let f2 := (bundle.player.map (fun pl => pl.full_name.getD "")).getD ""
    let full := pyStrip (if f1 ≠ "" then f1 else f2)
    let parts := stripSuffixToks (pySplitWs full)
    let firstName :=
      if full ≠ "" then (match parts with | [] => "" | p :: _ => p) else ""
    let lastName :=
      if full ≠ "" then
        (match parts with
         | [] => ""
         | [_] => ""
         | p :: q :: r => (p :: q :: r).getLast (by simp))
      else ""
    .ok (some
      { season := season
        team := team
        conference := confdiv.1
        division := confdiv.2
        record := record
        college := if college ≠ "" then some college else none
        first_name := if firstName ≠ "" then some firstName else none
        last_name := if lastName ≠ "" then some lastName else none })

/-- `resolve_hint_values` of `hints.py`.  Returns `.ok none` for the
empty dict `{}` (no stat lines), `.ok (some hv)` for a populated result,
and `.error` when the Python code would raise. -/
def resolve_hint_values (db : TeamDB) (bundle : HBundle) (line_idx : Int) :
    Except String (Option HintValues) :=
  let lines := bundle.stat_lines
  if lines.isEmpty then .ok none
  else resolveLine db bundle (lines.getD (lineIndexFor line_idx lines.length) ⟨none, none⟩)

/-! ## GameProgression — the session transitions of `app/routes.py`

The Flask session is embedded as an explicit record; each route handler
becomes a function from request inputs and the old session to the new
session.  External collaborators are parameters: the day's bundle
(`get_today_player_bundle`), the already-played check
(`has_played_today`, a database/session read), and the suggestion list
(`suggest_players`, a deterministic rapidfuzz ranking of the guess text
over the population, whose result is passed in as a list). -/

/-- The bundle returned by `get_today_player_bundle` as consumed by the
`/guess` handler (`bundle.get(...) or ""` models a missing key as `""`). -/
structure GBundle where
  full_name : String
  player_slug : String
  position : String
  stat_lines : List HLine
deriving Repr, DecidableEq

/-- The per-participant daily session state. -/
structure Session where
  revealed : Int
  hints_used : List String
  suggestions : List String
  solved_today : Bool
deriving Repr, DecidableEq

/-- `min(5, len(lines) if lines else 1)` — the reveal cap of `/guess`. -/
def maxReveal (bundle : GBundle) : Int :=
  min 5 (if bundle.stat_lines.isEmpty then 1 else (bundle.stat_lines.length : Int))

/-- `str.replace` specialized to a single-character pattern — the one
use in `/guess` is `player_slug.replace("-", " ")`. -/
def pyReplaceChar (s : String) (pat rep : Char) : String :=
  String.mk (s.data.map (fun c => if c = pat then rep else c))

/-- The acceptance test of `/guess`: membership in the exact/slug
candidate set, or typo forgiveness via `is_typo_match`.  The argument is
the already-stripped form text (`user_guess_raw`). -/
def isCorrectGuess (bundle : GBundle) (userGuessRaw : String) : Bool :=
  let user_guess := pyLower userGuessRaw
  let c1 := pyLower bundle.full_name
  let c2 := pyLower (pyReplaceChar bundle.player_slug '-' ' ')
  (user_guess = c1 || user_guess = c2) || is_typo_match userGuessRaw bundle.full_name

/-- The `/guess` handler's session transition.  `played` is the result
of `has_played_today`; `sugg` is the list returned by `suggest_players`
for this guess text.  CPython renders `list(set)` in an unspecified
order; the set written back by the solved branch and the wrong branch is
modelled elementwise below in `hintStep`, and here `/guess` writes plain
lists. -/
def guessStep (bundle : GBundle) (sugg : List String) (played : Bool)
    (formGuess : String) (formRevealed : Int) (fromSuggestion : Bool)
    (s : Session) : Session :=
  if played then s
  else
    let raw := pyStrip formGuess
    let mr := maxReveal bundle
    let revealed := max 1 (min formRevealed mr)
    if isCorrectGuess bundle raw then
      { s with solved_today := true, revealed := 1, hints_used := [], suggestions := [] }
    else if ¬ sugg.isEmpty && ¬ fromSuggestion then
      { s with suggestions := sugg }
    else
      { s with
          suggestions := if ¬ sugg.isEmpty then sugg else s.suggestions
          revealed := min (revealed + 1) mr }

/-- The `/hint` handler's session transition.  The posted `revealed`
value is stored back **without clamping**; a valid unowned hint kind is
added to the case-normalized `hints_used` set (`list({...})` is modelled
as the deduplicated lowercased list with the new kind appended — the
claims compare the resulting sets). -/
def hintStep (formRevealed : Int) (formKind : String) (s : Session) : Session :=
  let s1 := { s with revealed := formRevealed }
  let kind := pyLower (pyStrip formKind)
  if kind = "" || (HINT_COSTS.lookup kind).isNone then s1
  else
    let used := s1.hints_used.map pyLower
    if kind ∈ used then s1
    else { s1 with hints_used := used.dedup ++ [kind] }

/-- The day-rollover reset at the top of `/play`: on a new reference
day the session's reveal count, hints and pending suggestions are reset
(the solved flag and username are kept). -/
def playReset (isNewDay : Bool) (s : Session) : Session :=
  if isNewDay then { s with revealed := 1, hints_used := [], suggestions := [] } else s

/-- The practice-mode session (keys `practice_revealed`,
`practice_hints_used`). -/
structure PSession where
  revealed : Int
  hints_used : List String
deriving Repr, DecidableEq

/-- The `/practice/hint` handler's session transition: like `/hint`,
but with the dependency guard — once `team` is owned, `conference` and
`division` purchases are ignored. -/
def practiceHintStep (formRevealed : Int) (formKind : String) (s : PSession) : PSession :=
  let s1 := { s with revealed := formRevealed }
  let kind := pyLower (pyStrip formKind)
  if kind = "" || (HINT_COSTS.lookup kind).isNone then s1
  else
    let used := s1.hints_used.map pyLower
    if "team" ∈ used && (kind = "conference" || kind = "division") then s1
    else if kind ∉ used then { s1 with hints_used := used.dedup ++ [kind] }
    else s1

/-! ## Shared concrete data for counterexamples and witnesses -/

/-- A three-stat-line day subject used by concrete scenarios. -/
def demoBundle : GBundle :=
  { full_name := "Tom Brady"
    player_slug := "tom-brady"
    position := "QB"
    stat_lines :=
      [⟨some (.vInt 2019), some "NE"⟩,
       ⟨some (.vInt 2020), some "TAM"⟩,
       ⟨some (.vInt 2021), some "TB"⟩] }

/-- An unconfigured persistence collaborator (local mode). -/
def noDB : TeamDB := ⟨false, fun _ _ => .ok none⟩

/-! ## C1 — the score formula -/

/-- Auxiliary facts about `hint_penalty`: it is monotone under list
inclusion.  Needed because the unique-hint set of a sublist is a subset
of the unique-hint set of the superlist. -/
theorem hint_penalty_mono (l lp : List String) (hsub : l ⊆ lp) :
    hint_penalty l ≤ hint_penalty lp := by
  unfold hint_penalty
  by_cases hl : l = []
  · rw [if_pos hl]
    exact Nat.zero_le _
  · have hlp : lp ≠ [] := by
      obtain ⟨a, ha⟩ := List.exists_mem_of_ne_nil l hl
      exact List.ne_nil_of_mem (hsub ha)
    rw [if_neg hl, if_neg hlp]
    apply Finset.sum_le_sum_of_subset
    intro x hx
    simp only [uniqueHints, List.mem_toFinset, List.mem_filter, List.mem_map] at hx ⊢
    obtain ⟨⟨a, ha, rfl⟩, hne⟩ := hx
    exact ⟨⟨a, hsub ha, rfl⟩, hne⟩

/-- C1 counterexample: the claim quantifies over *every* integer
`revealed`, but `compute_score` clamps `revealed` below at 1
(`max(1, int(revealed or 1))`), so at `revealed = 0` the code yields
`100` while the claimed formula yields `110`. -/
theorem c1_counterexample :
    compute_total_score 0 [] = 100 ∧ specScoreFormula 0 [] = 110 ∧
    compute_total_score 0 [] ≠ specScoreFormula 0 [] := by decide

/-- C1 (amended): for every `revealed ≥ 1` and every hint list,
`compute_total_score(revealed, hints)` equals
`max(0, START_SCORE − PENALTY_PER_REVEAL·(revealed−1) − Σ unique hint
costs)`, unknown kinds costing 0; for `revealed < 1` the code clamps
`revealed` to 1 first. -/
theorem c1_scoreFormula (r : Int) (hr : 1 ≤ r) (hints : List String) :
    compute_total_score r hints = specScoreFormula r hints := by
  have h0 : (0 : Int) ≤ (hint_penalty hints : Int) := Int.ofNat_nonneg _
  have hrne : r ≠ 0 := by omega
  simp only [compute_total_score, specScoreFormula, compute_score,
    START_SCORE, PENALTY_PER_REVEAL, if_neg hrne]
  omega

/-- Witness for C1: the concrete scenario of the specification —
`revealed = 3`, hints `{"team"}` (cost 15) give score 65. -/
theorem c1_scoreFormula_witness :
    compute_total_score 3 ["team"] = specScoreFormula 3 ["team"] ∧
    compute_total_score 3 ["team"] = 65 :=
  ⟨c1_scoreFormula 3 (by decide) ["team"], by decide⟩

/-! ## C5 — deterministic daily selection -/

/-- C5: deterministic-mode selection is a pure function of the day
ordinal and the population list: two runs with arbitrary, possibly
different, OS entropy environments pick the same subject.  (The seeded
`random.Random(d.toordinal())` never reads the environment, unlike the
unseeded generator used for stat-line shuffling.) -/
theorem c5_pick_deterministic (e1 e2 : Env) (d : Nat) (players : List Player) :
    pick_player_of_day e1 d players = pick_player_of_day e2 d players := rfl

/-! ## C8 — score monotonicity -/

/-- `compute_score` is non-increasing on `revealed ≥ 1`. -/
theorem compute_score_anti (r rp : Int) (h1 : 1 ≤ r) (h2 : r ≤ rp) :
    compute_score rp ≤ compute_score r := by
  have hrne : r ≠ 0 := by omega
  have hrpne : rp ≠ 0 := by omega
  simp only [compute_score, START_SCORE, PENALTY_PER_REVEAL, if_neg hrne, if_neg hrpne]
  omega

/-- C8: the total score is non-increasing in the reveal count and in
the hint set (ordered by list inclusion), and `score(1, {}) = 100`. -/
theorem c8_monotone (r rp : Int) (h1 : 1 ≤ r) (h2 : r ≤ rp)
    (hs hsp : List String) (hsub : hs ⊆ hsp) :
    compute_total_score rp hs ≤ compute_total_score r hs ∧
    compute_total_score r hsp ≤ compute_total_score r hs ∧
    compute_total_score 1 [] = START_SCORE := by
  refine ⟨?_, ?_, by decide⟩
  · have := compute_score_anti r rp h1 h2
    simp only [compute_total_score]
    omega
  · have hpen := hint_penalty_mono hs hsp hsub
    have : (hint_penalty hs : Int) ≤ (hint_penalty hsp : Int) := by exact_mod_cast hpen
    simp only [compute_total_score]
    omega

/-- Witness for C8 at a concrete instance: `r = 2 ≤ 3 = r'`,
`["team"] ⊆ ["team", "college"]`. -/
theorem c8_monotone_witness :
    compute_total_score 3 ["team"] ≤ compute_total_score 2 ["team"] ∧
    compute_total_score 2 ["team", "college"] ≤ compute_total_score 2 ["team"] ∧
    compute_total_score 1 [] = START_SCORE :=
  c8_monotone 2 3 (by decide) (by decide) ["team"] ["team", "college"]
    (by intro a ha; simp only [List.mem_cons] at ha ⊢; tauto)

/-! ## C9 — idempotent hint purchase -/

/-- C9: purchasing the same known hint kind twice through `/hint`
yields the same session (hence the same `hints_used` set) and the same
score as purchasing it once. -/
theorem c9_hint_idempotent (r : Int) (k : String) (s : Session)
    (hk : (HINT_COSTS.lookup (pyLower (pyStrip k))).isSome = true) :
    hintStep r k (hintStep r k s) = hintStep r k s ∧
    compute_total_score (hintStep r k (hintStep r k s)).revealed
        (hintStep r k (hintStep r k s)).hints_used =
      compute_total_score (hintStep r k s).revealed (hintStep r k s).hints_used := by
  have hlow : pyLower (pyLower (pyStrip k)) = pyLower (pyStrip k) := pyLower_idem _
  have hcond : (pyLower (pyStrip k) = "" || (HINT_COSTS.lookup (pyLower (pyStrip k))).isNone) = false := by
    rcases h1 : HINT_COSTS.lookup (pyLower (pyStrip k)) with _ | v
    · rw [h1] at hk
      simp at hk
    · have hne : pyLower (pyStrip k) ≠ "" := by
        intro he
        rw [he] at h1
        simp [HINT_COSTS, List.lookup] at h1
      simp [hne, h1]
  have hmain : hintStep r k (hintStep r k s) = hintStep r k s := by
    simp only [hintStep, hcond, Bool.false_eq_true, if_false]
    by_cases hmem : (pyLower (pyStrip k)) ∈ s.hints_used.map pyLower
    · simp [hmem]
    · simp only [hmem, if_false, if_neg hmem]
      simp [List.mem_append, hlow]
  exact ⟨hmain, by rw [hmain]⟩

/-- Witness for C9: buying `"team"` twice at reveal count 2 equals
buying it once. -/
theorem c9_hint_idempotent_witness :
    hintStep 2 "team" (hintStep 2 "team" ⟨1, [], [], false⟩) =
      hintStep 2 "team" ⟨1, [], [], false⟩ ∧
    compute_total_score (hintStep 2 "team" (hintStep 2 "team" ⟨1, [], [], false⟩)).revealed
        (hintStep 2 "team" (hintStep 2 "team" ⟨1, [], [], false⟩)).hints_used =
      compute_total_score (hintStep 2 "team" ⟨1, [], [], false⟩).revealed
        (hintStep 2 "team" ⟨1, [], [], false⟩).hints_used :=
  c9_hint_idempotent 2 "team" ⟨1, [], [], false⟩ (by decide)

/-! ## C4 — hint dependency rule -/

/-- C4 counterexample: the daily `/hint` route applies no dependency
guard at all.  With `"team"` already owned, posting `"conference"`
charges it: `hints_used` grows and the penalty rises from 15 to 23. -/
theorem c4_counterexample :
    (hintStep 1 "conference" ⟨1, ["team"], [], false⟩).hints_used = ["team", "conference"] ∧
    hint_penalty (hintStep 1 "conference" ⟨1, ["team"], [], false⟩).hints_used = 23 ∧
    hint_penalty ["team"] = 15 := by decide

/-- C4 (amended): only the `/practice/hint` entry point has the
dependency guard, and only for the `"team"` hint: once `"team"` is
owned there, purchasing `"conference"` or `"division"` leaves
`hints_used` unchanged.  The daily `/hint` entry point has no guard
(the `/play` page merely hides the buttons), and no entry point guards
`"conference"` once `"division"` is owned. -/
theorem c4_practice_guard (r : Int) (s : PSession)
    (hteam : "team" ∈ s.hints_used.map pyLower) :
    (practiceHintStep r "conference" s).hints_used = s.hints_used ∧
    (practiceHintStep r "division" s).hints_used = s.hints_used := by
  constructor
  · simp only [practiceHintStep]
    have h1 : pyLower (pyStrip "conference") = "conference" := by decide
    simp [h1, HINT_COSTS, hteam]
  · simp only [practiceHintStep]
    have h1 : pyLower (pyStrip "division") = "division" := by decide
    simp [h1, HINT_COSTS, hteam]

/-- Witness for C4 (amended) at a concrete practice session owning
`"team"`. -/
theorem c4_practice_guard_witness :
    (practiceHintStep 2 "conference" ⟨2, ["team"]⟩).hints_used = ["team"] ∧
    (practiceHintStep 2 "division" ⟨2, ["team"]⟩).hints_used = ["team"] :=
  c4_practice_guard 2 ⟨2, ["team"]⟩ (by decide)

/-! ## C2 — reveal bound -/

/-- C2 counterexample: the `/hint` handler stores the form-posted
reveal count without clamping; posting `revealed = 7` against the
three-stat-line day subject stores 7 > min(5, 3). -/
theorem c2_counterexample :
    (hintStep 7 "team" ⟨1, [], [], false⟩).revealed = 7 ∧
    min 5 ((demoBundle.stat_lines.length : Int)) = 3 ∧
    ¬ (hintStep 7 "team" ⟨1, [], [], false⟩).revealed ≤
        min 5 ((demoBundle.stat_lines.length : Int)) := by decide

/-- C2 (amended): every reveal value the `/guess` handler *writes* is
within `[1, min(5, stat-line count)]` (it re-clamps the posted value
and caps the increment), and the `/play` day rollover writes 1; the
`/hint` handler, by contrast, stores the posted value unvalidated, so
the session field itself can leave the bound (all readers re-clamp). -/
theorem c2_guess_writes_bounded (bundle : GBundle) (sugg : List String)
    (played : Bool) (g : String) (fr : Int) (fs : Bool) (s : Session)
    (hne : bundle.stat_lines ≠ []) :
    ((guessStep bundle sugg played g fr fs s).revealed = s.revealed ∨
      (1 ≤ (guessStep bundle sugg played g fr fs s).revealed ∧
       (guessStep bundle sugg played g fr fs s).revealed ≤
         min 5 (bundle.stat_lines.length : Int))) ∧
    (playReset true s).revealed = 1 := by
  have hlen : (1 : Int) ≤ (bundle.stat_lines.length : Int) := by
    have := List.length_pos.mpr hne
    omega
  have hemp : bundle.stat_lines.isEmpty = false := by
    simp [List.isEmpty_iff, hne]
  constructor
  · simp only [guessStep, maxReveal, hemp, Bool.false_eq_true, if_false]
    by_cases hp : played
    · simp [hp]
    · simp only [hp, if_false]
      by_cases hc : isCorrectGuess bundle (pyStrip g) = true
      · simp only [hc, if_true]
        right
        simp only [Bool.false_eq_true, if_false]
        omega
      · simp only [hc, Bool.false_eq_true, if_false]
        split
        · left
          rfl
        · right
          dsimp only
          omega
  · simp [playReset]

/-- Witness for C2 (amended): a wrong counted guess with an oversized
posted reveal count against the demo subject stores a value within the
bound. -/
theorem c2_guess_writes_bounded_witness :
    ((guessStep demoBundle [] false "xyz" 10 false ⟨1, [], [], false⟩).revealed =
        (⟨1, [], [], false⟩ : Session).revealed ∨
      (1 ≤ (guessStep demoBundle [] false "xyz" 10 false ⟨1, [], [], false⟩).revealed ∧
       (guessStep demoBundle [] false "xyz" 10 false ⟨1, [], [], false⟩).revealed ≤
         min 5 (demoBundle.stat_lines.length : Int))) ∧
    (playReset true ⟨1, [], [], false⟩).revealed = 1 :=
  c2_guess_writes_bounded demoBundle [] false "xyz" 10 false ⟨1, [], [], false⟩ (by decide)

/-! ## C3 — the suggestion no-penalty rule -/

/-- C3 (amended): *every* incorrect, non-suggestion-click guess whose
suggestion search returns candidates is free — not only the first.  The
handler stashes the candidates and leaves the stored reveal count
untouched; nothing records that suggestions were already shown, so a
repeated identical wrong attempt is free again.  Only an attempt from a
suggestion click or one with no candidates increments the count. -/
theorem c3_free_attempt (bundle : GBundle) (sugg : List String)
    (g : String) (fr : Int) (s : Session)
    (hsugg : sugg ≠ [])
    (hwrong : isCorrectGuess bundle (pyStrip g) = false) :
    (guessStep bundle sugg false g fr false s).revealed = s.revealed ∧
    (guessStep bundle sugg false g fr false s).suggestions = sugg := by
  have hemp : sugg.isEmpty = false := by
    simp [List.isEmpty_iff, hsugg]
  simp [guessStep, hwrong, hemp]

/-- Witness for C3 (amended): the first wrong attempt `"xyz"` with one
candidate leaves the stored reveal count at 1 and stashes the
candidate. -/
theorem c3_free_attempt_witness :
    (guessStep demoBundle ["Tom Brady"] false "xyz" 1 false ⟨1, [], [], false⟩).revealed =
      (⟨1, [], [], false⟩ : Session).revealed ∧
    (guessStep demoBundle ["Tom Brady"] false "xyz" 1 false ⟨1, [], [], false⟩).suggestions =
      ["Tom Brady"] :=
  c3_free_attempt demoBundle ["Tom Brady"] "xyz" 1 ⟨1, [], [], false⟩ (by decide) (by decide)

/-- C3 counterexample: the claim's second half is false — a second
wrong attempt with text identical to the first (typed again, not
clicked from a suggestion) is *also* free: after two identical wrong
attempts of `"xyz"` (suggestions nonempty both times, since
`suggest_players` is deterministic in the guess text and population),
the stored reveal count is still 1, not 2. -/
theorem c3_counterexample :
    (guessStep demoBundle ["Tom Brady"] false "xyz" 1 false
      (guessStep demoBundle ["Tom Brady"] false "xyz" 1 false ⟨1, [], [], false⟩)).revealed = 1 ∧
    ¬ (guessStep demoBundle ["Tom Brady"] false "xyz" 1 false
      (guessStep demoBundle ["Tom Brady"] false "xyz" 1 false ⟨1, [], [], false⟩)).revealed = 2 := by
  decide

/-! ## C6 and C10 — hint resolution -/

/-- A populated bundle with integer seasons, as the game produces. -/
def demoHBundle : HBundle :=
  { stat_lines := [⟨some (.vInt 2019), some "NWE"⟩, ⟨some (.vInt 2020), some "TAM"⟩]
    college := some "Michigan"
    player := none
    full_name := some "Tom Brady" }

/-- A bundle with no stat lines. -/
def emptyHBundle : HBundle := ⟨[], none, none, none⟩

/-- A bundle whose stat line carries a truthy non-numeric season. -/
def badSeasonBundle : HBundle := ⟨[⟨some (.vStr "n/a"), some "NE"⟩], none, none, none⟩

/-- A season value on which `int(season)` cannot raise: absent, an
int, or a string that is empty (falsy) or parses as an integer. -/
def seasonOk : Option PyVal → Bool
  | none => true
  | some (.vInt _) => true
  | some (.vStr s) => s = "" || (pyIntOfString s).isSome

/-- `recordForLine` cannot raise when the season is `seasonOk`. -/
theorem recordForLine_ok (db : TeamDB) (season : Option PyVal) (team : Option String)
    (h : seasonOk season = true) :
    ∃ v, recordForLine db season team = .ok v := by
  unfold recordForLine
  split
  · rename_i hc
    cases season with
    | none => exact ⟨none, rfl⟩
    | some sv =>
      cases sv with
      | vInt n => exact ⟨_, rfl⟩
      | vStr st =>
        have hst : st ≠ "" := by
          simp only [Bool.and_eq_true, pvTruthy] at hc
          simpa using hc.1
        have hsome : (pyIntOfString st).isSome = true := by
          simp only [seasonOk, Bool.or_eq_true] at h
          rcases h with h | h
          · exact absurd (by simpa using h) hst
          · exact h
        obtain ⟨n, hn⟩ := Option.isSome_iff_exists.mp hsome
        simp only [pyInt, hn]
        exact ⟨_, rfl⟩
  · exact ⟨none, rfl⟩

/-- With a falsy team the record lookup is skipped. -/
theorem recordForLine_team_none (db : TeamDB) (season : Option PyVal) :
    recordForLine db season none = .ok none := by
  simp [recordForLine, osTruthy]

/-- `resolveLine` cannot raise when the line's season is `seasonOk`. -/
theorem resolveLine_ok (db : TeamDB) (b : HBundle) (line : HLine)
    (h : seasonOk line.season = true) :
    ∃ r, resolveLine db b line = .ok r := by
  simp only [resolveLine]
  obtain ⟨v, hv⟩ := recordForLine_ok db line.season (canon line.team) h
  rw [hv]
  exact ⟨_, rfl⟩

/-- When the resolved team is null, the dependent fields are null. -/
theorem resolveLine_null_fields (db : TeamDB) (b : HBundle) (line : HLine)
    (hv : HintValues) (h : resolveLine db b line = .ok (some hv))
    (ht : hv.team = none) :
    hv.conference = none ∧ hv.division = none ∧ hv.record = none := by
  simp only [resolveLine] at h
  rcases hrec : recordForLine db line.season (canon line.team) with e | record
  · rw [hrec] at h
    simp at h
  · rw [hrec] at h
    simp only [Except.ok.injEq, Option.some.injEq] at h
    have hteam : hv.team = canon line.team := by rw [← h]
    have hcanon : canon line.team = none := by rw [← hteam, ht]
    rw [hcanon] at hrec
    rw [recordForLine_team_none] at hrec
    have hrecnone : record = none := by
      simpa using hrec.symm
    refine ⟨?_, ?_, ?_⟩
    · rw [← h]
      simp [confDivFor, hcanon]
    · rw [← h]
      simp [confDivFor, hcanon]
    · rw [← h]
      simpa using hrecnone

/-- The clamp sends every non-positive index to 0. -/
theorem lineIndexFor_nonpos (i : Int) (len : Nat) (h : i ≤ 0) :
    lineIndexFor i len = 0 := by
  unfold lineIndexFor
  omega

/-- The clamp sends every index at or beyond the length to the last
position. -/
theorem lineIndexFor_ge (i : Int) (len : Nat) (h : (len : Int) ≤ i) :
    lineIndexFor i len = lineIndexFor ((len : Int) - 1) len := by
  unfold lineIndexFor
  omega

/-- The clamp always lands inside a nonempty list. -/
theorem lineIndexFor_lt (i : Int) (len : Nat) (h : 1 ≤ len) :
    lineIndexFor i len < len := by
  unfold lineIndexFor
  omega

/-- C6 counterexample: `resolve_hint_values` is *not* total on every
bundle dict — `int(season)` sits outside every `try`, so a truthy
non-numeric season string (`"n/a"`) raises `ValueError`. -/
theorem c6_counterexample :
    resolve_hint_values noDB badSeasonBundle 0 = Except.error "ValueError" := by rfl

/-- C6 (amended): `resolve_hint_values` never raises on bundles whose
stat-line seasons are integers (or absent/falsy/numeric strings) — the
shape every real bundle has — and missing lookups degrade to null
fields: with no resolvable team, conference, division and record are
all `None`.  (The college, name and record lookups are themselves
guarded or `try`-wrapped.) -/
theorem c6_resolve_total (db : TeamDB) (b : HBundle) (i : Int)
    (hsafe : ∀ l ∈ b.stat_lines, seasonOk l.season = true) :
    (∃ r, resolve_hint_values db b i = .ok r) ∧
    (∀ hv, resolve_hint_values db b i = .ok (some hv) →
      hv.team = none → hv.conference = none ∧ hv.division = none ∧ hv.record = none) := by
  by_cases hemp : b.stat_lines.isEmpty
  · constructor
    · exact ⟨none, by simp [resolve_hint_values, hemp]⟩
    · intro hv hres
      rw [resolve_hint_values] at hres
      simp [hemp] at hres
  · have hlen : 1 ≤ b.stat_lines.length := by
      cases hl : b.stat_lines with
      | nil => rw [hl] at hemp; simp at hemp
      | cons a as => simp [hl]
    have hidx := lineIndexFor_lt i b.stat_lines.length hlen
    have hgetd : b.stat_lines.getD (lineIndexFor i b.stat_lines.length) ⟨none, none⟩ =
        b.stat_lines.get ⟨lineIndexFor i b.stat_lines.length, hidx⟩ := by
      rw [List.getD_eq_getElem _ _ hidx]
      simp
    have hmem : b.stat_lines.get ⟨lineIndexFor i b.stat_lines.length, hidx⟩ ∈ b.stat_lines :=
      List.get_mem _ _ _
    have hsline := hsafe _ hmem
    constructor
    · rw [resolve_hint_values]
      simp only [hemp, Bool.false_eq_true, if_false, hgetd]
      exact resolveLine_ok db b _ hsline
    · intro hv hres ht
      rw [resolve_hint_values] at hres
      simp only [hemp, Bool.false_eq_true, if_false, hgetd] at hres
      exact resolveLine_null_fields db b _ hv hres ht

/-- Witness for C6: the populated demo bundle resolves without error in
local mode. -/
theorem c6_resolve_total_witness :
    ∃ r, resolve_hint_values noDB demoHBundle 0 = Except.ok r :=
  (c6_resolve_total noDB demoHBundle 0 (by decide)).1

/-- C10: the line index is clamped, not validated — any non-positive
index resolves the first line, any index at or beyond the stat-line
count resolves the last line, and a bundle with no stat lines yields
the empty dict. -/
theorem c10_index_clamp (db : TeamDB) (b : HBundle) (i : Int) :
    (b.stat_lines ≠ [] → i ≤ 0 →
      resolve_hint_values db b i = resolve_hint_values db b 0) ∧
    (b.stat_lines ≠ [] → (b.stat_lines.length : Int) ≤ i →
      resolve_hint_values db b i =
        resolve_hint_values db b ((b.stat_lines.length : Int) - 1)) ∧
    (b.stat_lines = [] → resolve_hint_values db b i = .ok none) := by
  refine ⟨?_, ?_, ?_⟩
  · intro _ hle
    rw [resolve_hint_values, resolve_hint_values,
      lineIndexFor_nonpos i _ hle, lineIndexFor_nonpos 0 _ le_rfl]
  · intro _ hge
    rw [resolve_hint_values, resolve_hint_values, lineIndexFor_ge i _ hge]
  · intro he
    rw [resolve_hint_values]
    simp [he]

/-- Witness for C10 at the demo bundles: index −3 acts as 0, index 99
acts as the last index, and the empty bundle yields the empty dict. -/
theorem c10_index_clamp_witness :
    resolve_hint_values noDB demoHBundle (-3) = resolve_hint_values noDB demoHBundle 0 ∧
    resolve_hint_values noDB demoHBundle 99 =
      resolve_hint_values noDB demoHBundle ((demoHBundle.stat_lines.length : Int) - 1) ∧
    resolve_hint_values noDB emptyHBundle 5 = .ok none :=
  ⟨(c10_index_clamp noDB demoHBundle (-3)).1 (by decide) (by decide),
   (c10_index_clamp noDB demoHBundle 99).2.1 (by decide) (by decide),
   (c10_index_clamp noDB emptyHBundle 5).2.2 rfl⟩

/-! ## C7 — guess acceptance -/

/-- The acceptance disjunction exactly as the specification words it:
case-insensitive full-name equality, slug with dashes as spaces,
normalized-form equality, first-initial-plus-last-token key, or
character similarity of at least 90 against the normalized true name. -/
def specAccepts (bundle : GBundle) (guessText : String) : Bool :=
  let t := pyStrip guessText
  let lowg := pyLower t
  (lowg = pyLower bundle.full_name) ||
  (lowg = pyLower (pyReplaceChar bundle.player_slug '-' ' ')) ||
  (norm_name t = norm_name bundle.full_name) ||
  (norm_name t = short_key bundle.full_name) ||
  simAtLeast90 (norm_name t) (norm_name bundle.full_name)

/-- `s = ""` is exactly emptiness of the character list. -/
theorem string_eq_empty_iff (s : String) : s = "" ↔ s.data = [] := by
  constructor
  · intro h
    rw [h]
  · intro h
    cases s with
    | mk data =>
      simp only at h
      rw [h]

/-- Runs produced by `chunkAux` from a nonempty accumulator are
nonempty. -/
theorem chunkAux_mem_ne_nil (f : Char → Bool) (l : List Char) :
    ∀ (cur : List Char) (curVal : Bool) (g : List Char), cur ≠ [] →
      g ∈ chunkAux f cur curVal l → g ≠ [] := by
  induction l with
  | nil =>
    intro cur curVal g hcur hg
    simp only [chunkAux, List.mem_singleton] at hg
    subst hg
    simpa using hcur
  | cons c cs ih =>
    intro cur curVal g hcur hg
    simp only [chunkAux] at hg
    by_cases hf : f c = curVal
    · rw [if_pos hf] at hg
      exact ih (c :: cur) curVal g (by simp) hg
    · rw [if_neg hf] at hg
      rcases List.mem_cons.mp hg with hg | hg
      · subst hg
        simpa using hcur
      · exact ih [c] (f c) g (by simp) hg

/-- Every run produced by `chunkBy` is nonempty. -/
theorem chunkBy_mem_ne_nil (f : Char → Bool) (l : List Char) (g : List Char)
    (hg : g ∈ chunkBy f l) : g ≠ [] := by
  cases l with
  | nil => simp [chunkBy] at hg
  | cons c cs => exact chunkAux_mem_ne_nil f cs [c] (f c) g (by simp) hg

/-- Every word of a normalized name is nonempty. -/
theorem normChunks_mem_ne_nil (s : String) (g : List Char)
    (hg : g ∈ normChunks s) : g ≠ [] := by
  simp only [normChunks, List.mem_filter] at hg
  exact chunkBy_mem_ne_nil _ _ g hg.1

/-- Joining a list of words starting with a nonempty word is nonempty. -/
theorem joinSp_ne_nil (g : List Char) (gs : List (List Char)) (hg : g ≠ []) :
    joinSp (g :: gs) ≠ [] := by
  cases gs with
  | nil => simpa [joinSp] using hg
  | cons h t =>
    simp only [joinSp]
    simp [List.append_eq_nil, hg]

/-- A normalized name is empty exactly when it has no words. -/
theorem norm_name_eq_empty_iff (s : String) :
    norm_name s = "" ↔ normChunks s = [] := by
  rw [norm_name, string_eq_empty_iff]
  constructor
  · intro h
    cases hc : normChunks s with
    | nil => rfl
    | cons g gs =>
      rw [hc] at h
      exact absurd h (joinSp_ne_nil g gs (normChunks_mem_ne_nil s g (by rw [hc]; simp)))
  · intro h
    rw [h]
    rfl

/-- The short key of a name with at least one word is nonempty. -/
theorem short_key_ne_empty (s : String) (h : normChunks s ≠ []) :
    short_key s ≠ "" := by
  rw [short_key]
  cases hc : normTokens s with
  | nil =>
    rw [normTokens, List.map_eq_nil_iff] at hc
    exact absurd hc h
  | cons p ps =>
    cases ps with
    | nil =>
      have hp : p ∈ normTokens s := by rw [hc]; simp
      rw [normTokens, List.mem_map] at hp
      obtain ⟨g, hg, rfl⟩ := hp
      have hne := normChunks_mem_ne_nil s g hg
      intro habs
      exact hne ((string_eq_empty_iff _).mp habs)
    | cons q qs =>
      intro habs
      have hlen := congrArg String.length habs
      simp only [String.length_append] at hlen
      rw [show (" " : String).length = 1 from rfl,
          show ("" : String).length = 0 from rfl] at hlen
      omega

/-- The LCS of the empty word with anything is zero. -/
theorem lcsLen_nil (ys : List Char) : lcsLen [] ys = 0 := by
  have key : ∀ n, (List.replicate n (0 : Nat)).getLastD 0 = 0 := by
    intro n
    induction n with
    | zero => rfl
    | succ m ih =>
      rw [List.replicate_succ, List.getLastD_cons]
      exact ih
  simpa [lcsLen] using key (ys.length + 1)

/-- An empty guess is never 90-similar to a nonempty name. -/
theorem simAtLeast90_empty_left (an : String) (h : an ≠ "") :
    simAtLeast90 "" an = false := by
  have hdata : an.data ≠ [] := by
    intro he
    exact h ((string_eq_empty_iff an).mpr he)
  have hlen : 1 ≤ an.data.length := by
    cases hd : an.data with
    | nil => exact absurd hd hdata
    | cons a as => simp
  have h0 : ("" : String).data = [] := rfl
  simp only [simAtLeast90, h0, List.length_nil, lcsLen_nil]
  rw [if_neg (by omega)]
  simp only [ge_iff_le, decide_eq_false_iff_not]
  omega

/-- C7 counterexample: the claimed equivalence fails on the degenerate
case where both the guess and the subject's name normalize to the empty
string (the name `"V"` is itself a generational-suffix token): the
normalized forms are equal — and the rapidfuzz similarity of two empty
strings is 100 — so the claimed disjunction accepts, but the code
rejects (`is_typo_match` bails out on empty normalized input). -/
theorem c7_counterexample :
    specAccepts ⟨"V", "v", "QB", []⟩ "Jr" = true ∧
    isCorrectGuess ⟨"V", "v", "QB", []⟩ (pyStrip "Jr") = false := by decide

/-- `is_typo_match` rejects every guess whose normalized form is
empty. -/
theorem is_typo_match_empty_q (q a : String) (hq : norm_name q = "") :
    is_typo_match q a = false := by
  simp [is_typo_match, hq]

/-- With nonempty normalized inputs, `is_typo_match` is exactly the
three-way disjunction: normalized equality, short-key match, or
90-similarity. -/
theorem is_typo_match_eq (q a : String) (hq : norm_name q ≠ "") (ha : norm_name a ≠ "") :
    is_typo_match q a =
      ((norm_name q = norm_name a) || (norm_name q = short_key a) ||
        simAtLeast90 (norm_name q) (norm_name a)) := by
  simp only [is_typo_match]
  rw [if_neg (by simp [hq, ha])]
  by_cases h1 : norm_name q = norm_name a
  · simp [h1]
  · rw [if_neg h1]
    by_cases h2 : norm_name q = short_key a
    · simp [h1, h2]
    · rw [if_neg h2]
      simp [h1, h2]

/-- C7 (amended): whenever the subject's true name does not normalize
to the empty string — true of every real name — a daily guess is
accepted exactly when it passes one of the five tests of the claim. -/
theorem c7_guess_acceptance (b : GBundle) (g : String)
    (hname : norm_name b.full_name ≠ "") :
    isCorrectGuess b (pyStrip g) = true ↔ specAccepts b g = true := by
  have hsk : short_key b.full_name ≠ "" :=
    short_key_ne_empty b.full_name
      (fun hc => hname ((norm_name_eq_empty_iff b.full_name).mpr hc))
  simp only [isCorrectGuess, specAccepts]
  by_cases hqn : norm_name (pyStrip g) = ""
  · rw [is_typo_match_empty_q _ _ hqn]
    have hsim0 := simAtLeast90_empty_left (norm_name b.full_name) hname
    rw [hqn, hsim0]
    simp [Ne.symm hname, Ne.symm hsk]
  · rw [is_typo_match_eq _ _ hqn hname]
    simp [Bool.or_assoc]

/-- Witness for C7: against the demo subject, the small-typo guess
`"Tom Bradyy"` is accepted (and agrees with the specification's
disjunction), while the similarly spelled `"Tim Boady"` is rejected. -/
theorem c7_guess_acceptance_witness :
    (isCorrectGuess demoBundle (pyStrip "Tom Bradyy") = true ↔
      specAccepts demoBundle "Tom Bradyy" = true) ∧
    isCorrectGuess demoBundle (pyStrip "Tom Bradyy") = true ∧
    isCorrectGuess demoBundle (pyStrip "Tim Boady") = false :=
  ⟨c7_guess_acceptance demoBundle "Tom Bradyy" (by decide), by decide, by decide⟩

end BallKnowledge
